import Mathlib

/-!
Shallow embedding of the `trait_type_map` Rust crate
(`src/trait_type_map.rs`).

The multi-valued backend `VecOptionStorage<T, Dyn>` is modelled with its
`Vec<Option<T>>` as a `List (Option α)` and its cached live count as a `Nat`.
Borrowed views (`&T`, `&mut T`, `Box<Dyn>`) are modelled by the values they
observe, so the upcast adapter `TraitAccessor` becomes a record of plain
functions `α → δ`.  Mutating Rust methods become state-passing functions, and
`expect`/`assert!` panics become `Option String` panic messages or
`Except String` results carrying the exact diagnostic string of the source.
-/

/-- Upcast adapter: the `TraitAccessor<T, Dyn>` struct of function pointers. -/
structure TraitAccessor (α δ : Type) where
  up_ref : α → δ
  up_mut : α → δ
  up_box : α → δ

/-- `VecOptionStorage<T, Dyn>`: a vector of optional values plus the upcast
adapter and a cached count of non-`None` elements. -/
structure VecOptionStorage (α δ : Type) where
  data : List (Option α)
  trait_accessor : TraitAccessor α δ
  count : Nat

/-- `VecOptionStorage::new`. -/
def VecOptionStorage.new {α δ : Type} (trait_accessor : TraitAccessor α δ) :
    VecOptionStorage α δ :=
  { data := [], trait_accessor := trait_accessor, count := 0 }

/-- `VecOptionStorage::push`: appends `Some v` at index `data.len()`,
increments the cached count, and returns the index. -/
def VecOptionStorage.push {α δ : Type} (s : VecOptionStorage α δ) (v : α) :
    VecOptionStorage α δ × Nat :=
  let idx := s.data.length
  ({ s with data := s.data ++ [some v], count := s.count + 1 }, idx)

/-- `VecOptionStorage::iter`: the present values in ascending index order. -/
def VecOptionStorage.iter {α δ : Type} (s : VecOptionStorage α δ) : List α :=
  s.data.filterMap id

/-- `VecOptionStorage::get`: `self.data.get(i).and_then(|o| o.as_ref())`. -/
def VecOptionStorage.get {α δ : Type} (s : VecOptionStorage α δ) (i : Nat) :
    Option α :=
  (s.data[i]?).bind id

/-- `VecOptionStorage::get_mut` observed as the value it exposes. -/
def VecOptionStorage.get_mut {α δ : Type} (s : VecOptionStorage α δ) (i : Nat) :
    Option α :=
  (s.data[i]?).bind id

/-- `VecOptionStorage::take`: `Option::take` on slot `i` (a no-op when `i` is
out of range), decrementing the cached count exactly when a value came out. -/
def VecOptionStorage.take {α δ : Type} (s : VecOptionStorage α δ) (i : Nat) :
    VecOptionStorage α δ × Option α :=
  let result := (s.data[i]?).bind id
  ({ s with
      data := s.data.set i none,
      count := if result.isSome then s.count - 1 else s.count }, result)

/-- `VecOptionStorage::get_dyn`. -/
def VecOptionStorage.get_dyn {α δ : Type} (s : VecOptionStorage α δ) (i : Nat) :
    Option δ :=
  (s.get i).map s.trait_accessor.up_ref

/-- `VecOptionStorage::get_dyn_mut`. -/
def VecOptionStorage.get_dyn_mut {α δ : Type} (s : VecOptionStorage α δ)
    (i : Nat) : Option δ :=
  (s.get_mut i).map s.trait_accessor.up_mut

/-- `VecOptionStorage::take_boxed`. -/
def VecOptionStorage.take_boxed {α δ : Type} (s : VecOptionStorage α δ)
    (i : Nat) : VecOptionStorage α δ × Option δ :=
  ((s.take i).1, (s.take i).2.map s.trait_accessor.up_box)

/-- `TraitVecStorage::len` for `VecOptionStorage`: returns the cached count. -/
def VecOptionStorage.len {α δ : Type} (s : VecOptionStorage α δ) : Nat :=
  s.count

/-- `TraitVecStorage::is_empty` default method: `len() == 0`. -/
def VecOptionStorage.is_empty {α δ : Type} (s : VecOptionStorage α δ) : Bool :=
  s.len == 0

/-- Number of present (live) slots of the underlying sequence. -/
def liveCount {α : Type} (l : List (Option α)) : Nat :=
  l.countP (fun o => o.isSome)

/-- One step of an interleaving of `push` and `take` on a multi-storage. -/
inductive Op (α : Type) where
  | push (v : α)
  | take (i : Nat)
deriving DecidableEq

/-- Apply one operation, discarding the returned index or value. -/
def applyOp {α δ : Type} (s : VecOptionStorage α δ) : Op α → VecOptionStorage α δ
  | Op.push v => (s.push v).1
  | Op.take i => (s.take i).1

/-- Run a sequence of operations from a given state. -/
def runFrom {α δ : Type} (s : VecOptionStorage α δ) (ops : List (Op α)) :
    VecOptionStorage α δ :=
  ops.foldl applyOp s

/-- Run a sequence of operations on a fresh multi-storage. -/
def vrun {α δ : Type} (trait_accessor : TraitAccessor α δ) (ops : List (Op α)) :
    VecOptionStorage α δ :=
  runFrom (VecOptionStorage.new trait_accessor) ops

/- ==================== Single backend ==================== -/

/-- `OptionStorage<T, Dyn>`: a single optional slot plus the upcast adapter. -/
structure OptionStorage (α δ : Type) where
  data : Option α
  trait_accessor : TraitAccessor α δ

/-- `OptionStorage::new`. -/
def OptionStorage.new {α δ : Type} (trait_accessor : TraitAccessor α δ) :
    OptionStorage α δ :=
  { data := none, trait_accessor := trait_accessor }

/-- `OptionStorage::set`: overwrites the slot with `Some v`. -/
def OptionStorage.set {α δ : Type} (s : OptionStorage α δ) (v : α) :
    OptionStorage α δ :=
  { s with data := some v }

/-- `OptionStorage::get`. -/
def OptionStorage.get {α δ : Type} (s : OptionStorage α δ) : Option α :=
  s.data

/-- `OptionStorage::get_mut` observed as the value it exposes. -/
def OptionStorage.get_mut {α δ : Type} (s : OptionStorage α δ) : Option α :=
  s.data

/-- `OptionStorage::take`: `Option::take` on the slot. -/
def OptionStorage.take {α δ : Type} (s : OptionStorage α δ) :
    OptionStorage α δ × Option α :=
  ({ s with data := none }, s.data)

/-- `OptionStorage::is_some` (the presence check). -/
def OptionStorage.is_some {α δ : Type} (s : OptionStorage α δ) : Bool :=
  s.data.isSome

/-- `OptionStorage::get_dyn`. -/
def OptionStorage.get_dyn {α δ : Type} (s : OptionStorage α δ) : Option δ :=
  s.get.map s.trait_accessor.up_ref

/-- `OptionStorage::get_dyn_mut`. -/
def OptionStorage.get_dyn_mut {α δ : Type} (s : OptionStorage α δ) : Option δ :=
  s.get_mut.map s.trait_accessor.up_mut

/-- `OptionStorage::take_boxed`. -/
def OptionStorage.take_boxed {α δ : Type} (s : OptionStorage α δ) :
    OptionStorage α δ × Option δ :=
  (s.take.1, s.take.2.map s.trait_accessor.up_box)

/- =================== The map (VecFamily) ================= -/

/-- The type-erased handle `Box<dyn TraitVecStorage<Dyn>>` for the vector
family: a typed storage for some concrete type identity, packaged with that
identity (which is what `as_storage_any` lets the downcast recover). -/
def DynStorage (K : Type) (El : K → Type) (δ : Type) : Type :=
  Σ t : K, VecOptionStorage (El t) δ

/-- `AHashMap::get` on the entry association list. -/
def hmGet {K V : Type} [DecidableEq K] (k : K) : List (K × V) → Option V
  | [] => none
  | (k', v) :: rest => if k' = k then some v else hmGet k rest

/-- `AHashMap::insert`: replaces any existing binding of `k` in place and
returns the new entry list together with the previous value (as the Rust
`HashMap::insert` does). -/
def hmInsert {K V : Type} [DecidableEq K] (k : K) (v : V) :
    List (K × V) → List (K × V) × Option V
  | [] => ([(k, v)], none)
  | (k', v') :: rest =>
    if k' = k then ((k, v) :: rest, some v')
    else
      let r := hmInsert k v rest
      ((k', v') :: r.1, r.2)

/-- `TraitTypeMap<Dyn, VecFamily>`: type identity → type-erased handle. -/
structure TraitTypeMap (K : Type) (El : K → Type) (δ : Type) where
  entries : List (K × DynStorage K El δ)

/-- `TraitTypeMap::new`. -/
def TraitTypeMap.new {K : Type} {El : K → Type} {δ : Type} :
    TraitTypeMap K El δ :=
  { entries := [] }

/-- `VecFamily::storage_ref` / `storage_mut`: the checked downcast of a handle
back to the typed storage for identity `T`; `none` models the
`expect("wrong T for VecFamily")` panic branch. -/
def VecFamily.storage_ref {K : Type} [DecidableEq K] {El : K → Type} {δ : Type}
    (T : K) (e : DynStorage K El δ) : Option (VecOptionStorage (El T) δ) :=
  if h : e.1 = T then some (h ▸ e.2) else none

/-- `TraitTypeMap::register_type_storage::<T>`: inserts a fresh empty typed
storage at `T` (replacing any previous entry, as `HashMap::insert` does) and
then asserts that nothing was replaced.  The second component is the panic
message raised by the `assert!`, if any; the first is the map state at that
point. -/
def TraitTypeMap.register_type_storage {K : Type} [DecidableEq K]
    {El : K → Type} {δ : Type} (m : TraitTypeMap K El δ) (T : K)
    (acc : TraitAccessor (El T) δ) : TraitTypeMap K El δ × Option String :=
  let r := hmInsert T ⟨T, VecOptionStorage.new acc⟩ m.entries
  let inserted := r.2.isNone
  ({ entries := r.1 }, if inserted then none else some "type already registered")

/-- `TraitTypeMap::get_storage::<T>`: lookup by type identity, then the
policy downcast; `Except.error` carries the panic message of the
corresponding `expect`. -/
def TraitTypeMap.get_storage {K : Type} [DecidableEq K] {El : K → Type}
    {δ : Type} (m : TraitTypeMap K El δ) (T : K) :
    Except String (VecOptionStorage (El T) δ) :=
  match hmGet T m.entries with
  | none => Except.error "type not registered"
  | some e =>
    match VecFamily.storage_ref T e with
    | none => Except.error "wrong T for VecFamily"
    | some s => Except.ok s

/-- `TraitTypeMap::get_storage_mut::<T>` (same lookup and downcast). -/
def TraitTypeMap.get_storage_mut {K : Type} [DecidableEq K] {El : K → Type}
    {δ : Type} (m : TraitTypeMap K El δ) (T : K) :
    Except String (VecOptionStorage (El T) δ) :=
  match hmGet T m.entries with
  | none => Except.error "type not registered"
  | some e =>
    match VecFamily.storage_ref T e with
    | none => Except.error "wrong T for VecFamily"
    | some s => Except.ok s

/-- `TraitTypeMap::get_trait_storage`: plain lookup, returns an option. -/
def TraitTypeMap.get_trait_storage {K : Type} [DecidableEq K] {El : K → Type}
    {δ : Type} (m : TraitTypeMap K El δ) (id : K) :
    Option (DynStorage K El δ) :=
  hmGet id m.entries

/-- `TraitTypeMap::get_trait_storage_mut`: plain lookup, returns an option. -/
def TraitTypeMap.get_trait_storage_mut {K : Type} [DecidableEq K]
    {El : K → Type} {δ : Type} (m : TraitTypeMap K El δ) (id : K) :
    Option (DynStorage K El δ) :=
  hmGet id m.entries

/-- The map invariant: every handle wraps typed storage whose identity is the
key under which it is stored. -/
def WellFormed {K : Type} {El : K → Type} {δ : Type}
    (m : TraitTypeMap K El δ) : Prop :=
  ∀ p ∈ m.entries, (p.2).1 = p.1

/-- The identity accessor on `Nat`, used to instantiate concrete states. -/
def accId : TraitAccessor Nat Nat :=
  { up_ref := id, up_mut := id, up_box := id }

/-- A fresh multi-storage over `Nat`, used to instantiate concrete states. -/
def vs0 : VecOptionStorage Nat Nat :=
  VecOptionStorage.new accId

/-- A concrete element-type family (every identity stores `Nat`). -/
def natEl : Nat → Type := fun _ => Nat

/-- A fresh concrete map, used to instantiate concrete states. -/
def mapEmpty : TraitTypeMap Nat natEl Nat :=
  TraitTypeMap.new

/-- The concrete map with identity `0` registered. -/
def mapWithZero : TraitTypeMap Nat natEl Nat :=
  (mapEmpty.register_type_storage 0 accId).1

/- ===================== Helper lemmas ===================== -/

theorem liveCount_set_none {α : Type} (l : List (Option α)) (i : Nat) :
    liveCount (l.set i none) +
      (if ((l[i]?).bind id).isSome then 1 else 0) = liveCount l := by
  induction l generalizing i with
  | nil => simp [liveCount]
  | cons o t ih =>
    cases i with
    | zero => simp [liveCount, List.countP_cons]
    | succ j =>
      have h1 := ih j
      simp only [liveCount] at h1 ⊢
      rw [show (o :: t).set (j + 1) none = o :: t.set j none from rfl,
        List.getElem?_cons_succ, List.countP_cons, List.countP_cons]
      omega

/-- The count invariant: the cached count equals the number of live slots. -/
def countInv {α δ : Type} (s : VecOptionStorage α δ) : Prop :=
  s.count = liveCount s.data

theorem countInv_applyOp {α δ : Type} {s : VecOptionStorage α δ}
    (h : countInv s) (op : Op α) : countInv (applyOp s op) := by
  cases op with
  | push v =>
    simp only [countInv, applyOp, VecOptionStorage.push, liveCount,
      List.countP_append] at *
    simp [h, List.countP_cons]
  | take i =>
    have h0 : s.count = liveCount s.data := h
    have hs := liveCount_set_none s.data i
    show (s.take i).1.count = liveCount (s.take i).1.data
    rw [show (s.take i).1.data = s.data.set i none from rfl,
      show (s.take i).1.count =
        if ((s.data[i]?).bind id).isSome then s.count - 1 else s.count
        from rfl]
    by_cases hr : ((s.data[i]?).bind id).isSome = true
    · rw [if_pos hr] at hs ⊢
      omega
    · rw [if_neg hr] at hs ⊢
      omega

theorem countInv_runFrom {α δ : Type} {s : VecOptionStorage α δ}
    (h : countInv s) (ops : List (Op α)) : countInv (runFrom s ops) := by
  induction ops generalizing s with
  | nil => exact h
  | cons op rest ih => exact ih (countInv_applyOp h op)

theorem countInv_vrun {α δ : Type} (acc : TraitAccessor α δ)
    (ops : List (Op α)) : countInv (vrun acc ops) :=
  countInv_runFrom (by simp [countInv, VecOptionStorage.new, liveCount]) ops

theorem get_push_self {α δ : Type} (s : VecOptionStorage α δ) (v : α) :
    (s.push v).1.get (s.push v).2 = some v := by
  simp [VecOptionStorage.push, VecOptionStorage.get, List.getElem?_concat_length]

theorem lt_length_of_get_eq_some {α δ : Type} {s : VecOptionStorage α δ}
    {idx : Nat} {v : α} (h : s.get idx = some v) : idx < s.data.length := by
  by_contra hge
  rw [VecOptionStorage.get, List.getElem?_eq_none (by omega)] at h
  simp at h

theorem get_applyOp_stable {α δ : Type} {s : VecOptionStorage α δ} {idx : Nat}
    {v : α} (h : s.get idx = some v) (op : Op α) (hop : op ≠ Op.take idx) :
    (applyOp s op).get idx = some v := by
  have hlt : idx < s.data.length := lt_length_of_get_eq_some h
  cases op with
  | push w =>
    simp only [applyOp, VecOptionStorage.push, VecOptionStorage.get] at *
    rw [List.getElem?_append_left hlt]
    exact h
  | take j =>
    have hne : j ≠ idx := fun he => hop (by rw [he])
    simp only [applyOp, VecOptionStorage.take, VecOptionStorage.get] at *
    rw [List.getElem?_set_ne hne]
    exact h

theorem get_runFrom_stable {α δ : Type} {s : VecOptionStorage α δ} {idx : Nat}
    {v : α} (h : s.get idx = some v) {ops : List (Op α)}
    (hops : Op.take idx ∉ ops) : (runFrom s ops).get idx = some v := by
  induction ops generalizing s with
  | nil => exact h
  | cons op rest ih =>
    simp only [List.mem_cons, not_or] at hops
    exact ih (get_applyOp_stable h op (fun he => hops.1 he.symm)) hops.2

/-- Slot `i` is tombstoned: in range and permanently absent. -/
def tomb {α δ : Type} (s : VecOptionStorage α δ) (i : Nat) : Prop :=
  s.data[i]? = some none

theorem tomb_applyOp {α δ : Type} {s : VecOptionStorage α δ} {i : Nat}
    (h : tomb s i) (op : Op α) : tomb (applyOp s op) i := by
  have hlt : i < s.data.length := by
    by_contra hge
    rw [tomb, List.getElem?_eq_none (by omega)] at h
    simp at h
  cases op with
  | push w =>
    simp only [tomb, applyOp, VecOptionStorage.push] at *
    rw [List.getElem?_append_left hlt]
    exact h
  | take j =>
    simp only [tomb, applyOp, VecOptionStorage.take] at *
    by_cases hji : j = i
    · subst hji
      rw [List.getElem?_set_self hlt]
    · rw [List.getElem?_set_ne hji]
      exact h

theorem tomb_runFrom {α δ : Type} {s : VecOptionStorage α δ} {i : Nat}
    (h : tomb s i) (ops : List (Op α)) : tomb (runFrom s ops) i := by
  induction ops generalizing s with
  | nil => exact h
  | cons op rest ih => exact ih (tomb_applyOp h op)

theorem tomb_of_take_isSome {α δ : Type} {s : VecOptionStorage α δ} {i : Nat}
    (h : ((s.take i).2).isSome = true) : tomb (s.take i).1 i := by
  have h2 : ((s.data[i]?).bind id).isSome = true := h
  have hlt : i < s.data.length := by
    by_contra hge
    rw [List.getElem?_eq_none (by omega)] at h2
    simp at h2
  show (s.data.set i none)[i]? = some none
  rw [List.getElem?_set_self hlt]

theorem tomb_get_none {α δ : Type} {s : VecOptionStorage α δ} {i : Nat}
    (h : tomb s i) :
    s.get i = none ∧ s.get_mut i = none ∧ (s.take i).2 = none := by
  rw [tomb] at h
  refine ⟨?_, ?_, ?_⟩ <;>
    simp [VecOptionStorage.get, VecOptionStorage.get_mut,
      VecOptionStorage.take, h]

theorem hmInsert_snd {K V : Type} [DecidableEq K] (k : K) (v : V)
    (l : List (K × V)) : (hmInsert k v l).2 = hmGet k l := by
  induction l with
  | nil => rfl
  | cons p rest ih =>
    obtain ⟨k', v'⟩ := p
    by_cases hk : k' = k
    · simp [hmInsert, hmGet, hk]
    · simp [hmInsert, hmGet, hk, ih]

theorem hmGet_hmInsert_self {K V : Type} [DecidableEq K] (k : K) (v : V)
    (l : List (K × V)) : hmGet k (hmInsert k v l).1 = some v := by
  induction l with
  | nil => simp [hmInsert, hmGet]
  | cons p rest ih =>
    obtain ⟨k', v'⟩ := p
    by_cases hk : k' = k
    · simp [hmInsert, hmGet, hk]
    · simp [hmInsert, hmGet, hk, ih]

theorem hmGet_mem {K V : Type} [DecidableEq K] {k : K} {v : V}
    {l : List (K × V)} (h : hmGet k l = some v) : (k, v) ∈ l := by
  induction l with
  | nil => simp [hmGet] at h
  | cons p rest ih =>
    obtain ⟨k', v'⟩ := p
    by_cases hk : k' = k
    · subst hk
      rw [hmGet, if_pos rfl] at h
      injection h with h
      subst h
      exact List.mem_cons_self _ _
    · rw [hmGet, if_neg hk] at h
      exact List.mem_cons_of_mem _ (ih h)

theorem storage_ref_self {K : Type} [DecidableEq K] {El : K → Type} {δ : Type}
    (t : K) (st : VecOptionStorage (El t) δ) :
    VecFamily.storage_ref t (⟨t, st⟩ : DynStorage K El δ) = some st :=
  dif_pos rfl

/- ==================== Claim theorems ===================== -/

/-- C1: for any interleaving of `push` and `take` on a multi-storage, an index
returned by a `push` that has not subsequently been passed to `take` still
addresses exactly the value that `push` inserted; the index is assigned at the
underlying sequence length, so indices are never shifted or reused. -/
theorem push_index_stability {α δ : Type} (s : VecOptionStorage α δ) (v : α)
    (ops : List (Op α)) (h : Op.take (s.push v).2 ∉ ops) :
    (runFrom (s.push v).1 ops).get (s.push v).2 = some v ∧
      (s.push v).2 = s.data.length :=
  ⟨get_runFrom_stable (get_push_self s v) h, rfl⟩

/-- C1 witness: push 5 then 7 on a fresh storage, then push 9 and take index
0; index 1 still addresses the value 7. -/
theorem push_index_stability_witness :
    Op.take ((vs0.push 5).1.push 7).2 ∉ [Op.push 9, Op.take 0] ∧
      ((runFrom ((vs0.push 5).1.push 7).1 [Op.push 9, Op.take 0]).get
          ((vs0.push 5).1.push 7).2 = some 7 ∧
        ((vs0.push 5).1.push 7).2 = (vs0.push 5).1.data.length) :=
  ⟨by decide,
    push_index_stability (vs0.push 5).1 7 [Op.push 9, Op.take 0] (by decide)⟩

/-- C2: after any sequence of `push`/`take` on a fresh multi-storage, `len()`
equals the number of present slots of the underlying sequence, and the count
is maintained incrementally: `push` adds one, a successful `take` subtracts
one, an unsuccessful `take` leaves it unchanged. -/
theorem vec_len_eq_liveCount {α δ : Type} (acc : TraitAccessor α δ)
    (ops : List (Op α)) (v : α) (i : Nat) :
    (vrun acc ops).len = liveCount (vrun acc ops).data ∧
      ((vrun acc ops).push v).1.len = (vrun acc ops).len + 1 ∧
      ((vrun acc ops).take i).1.len =
        (if ((vrun acc ops).take i).2.isSome then (vrun acc ops).len - 1
          else (vrun acc ops).len) :=
  ⟨countInv_vrun acc ops, rfl, rfl⟩

/-- C3: once `take i` has returned a value, every subsequent `get i`,
`get_mut i` and `take i` return the empty option after any further sequence
of operations, including later pushes: a tombstoned slot is terminal. -/
theorem take_tombstone_permanent {α δ : Type} (s : VecOptionStorage α δ)
    (i : Nat) (ops : List (Op α)) (h : ((s.take i).2).isSome = true) :
    (runFrom (s.take i).1 ops).get i = none ∧
      (runFrom (s.take i).1 ops).get_mut i = none ∧
      ((runFrom (s.take i).1 ops).take i).2 = none :=
  tomb_get_none (tomb_runFrom (tomb_of_take_isSome h) ops)

/-- C3 witness: push 5, take index 0 (which succeeds), then push 9; index 0
remains empty for `get`, `get_mut` and `take`. -/
theorem take_tombstone_permanent_witness :
    ((((vs0.push 5).1.take 0).2).isSome = true) ∧
      ((runFrom ((vs0.push 5).1.take 0).1 [Op.push 9]).get 0 = none ∧
        (runFrom ((vs0.push 5).1.take 0).1 [Op.push 9]).get_mut 0 = none ∧
        ((runFrom ((vs0.push 5).1.take 0).1 [Op.push 9]).take 0).2 = none) :=
  ⟨by decide, take_tombstone_permanent (vs0.push 5).1 0 [Op.push 9] (by decide)⟩

/-- C4: registering a type panics with the message "type already registered"
exactly when the type identity is already present, succeeds otherwise, and in
either case leaves a fresh empty typed storage registered at that identity. -/
theorem register_duplicate_fatal {K : Type} [DecidableEq K] {El : K → Type}
    {δ : Type} (m : TraitTypeMap K El δ) (T : K)
    (acc : TraitAccessor (El T) δ) :
    (m.register_type_storage T acc).2 =
      (if (m.get_trait_storage T).isSome then some "type already registered"
        else none) ∧
      (m.register_type_storage T acc).1.get_trait_storage T =
        some ⟨T, VecOptionStorage.new acc⟩ := by
  constructor
  · show (if (hmInsert T ⟨T, VecOptionStorage.new acc⟩ m.entries).2.isNone
      then none else some "type already registered") =
      (if (hmGet T m.entries).isSome then some "type already registered"
        else none)
    rw [hmInsert_snd]
    cases hmGet T m.entries <;> rfl
  · show hmGet T (hmInsert T ⟨T, VecOptionStorage.new acc⟩ m.entries).1 =
      some ⟨T, VecOptionStorage.new acc⟩
    exact hmGet_hmInsert_self _ _ _

/-- C5: accessing an unregistered type through the typed accessors fails
fatally with "type not registered", while the trait-storage lookups return
the empty option and never fail. -/
theorem unregistered_access_fatal {K : Type} [DecidableEq K] {El : K → Type}
    {δ : Type} (m : TraitTypeMap K El δ) (T : K)
    (h : m.get_trait_storage T = none) :
    m.get_storage T = Except.error "type not registered" ∧
      m.get_storage_mut T = Except.error "type not registered" ∧
      m.get_trait_storage T = none ∧ m.get_trait_storage_mut T = none := by
  have h' : hmGet T m.entries = none := h
  refine ⟨?_, ?_, h, h'⟩
  · simp [TraitTypeMap.get_storage, h']
  · simp [TraitTypeMap.get_storage_mut, h']

/-- C5 witness: the fresh map has no identity 0, and both typed accessors
fail with "type not registered" while the trait lookups return none. -/
theorem unregistered_access_fatal_witness :
    mapEmpty.get_trait_storage 0 = none ∧
      (mapEmpty.get_storage 0 = Except.error "type not registered" ∧
        mapEmpty.get_storage_mut 0 = Except.error "type not registered" ∧
        mapEmpty.get_trait_storage 0 = none ∧
        mapEmpty.get_trait_storage_mut 0 = none) :=
  ⟨rfl, unregistered_access_fatal mapEmpty 0 rfl⟩

/-- C6: for any index at or beyond the underlying sequence length, `get`,
`get_mut` and `take` return the empty option, and `take` leaves the storage
unchanged (no failure, no out-of-bounds access). -/
theorem out_of_range_returns_none {α δ : Type} (s : VecOptionStorage α δ)
    (i : Nat) (h : s.data.length ≤ i) :
    s.get i = none ∧ s.get_mut i = none ∧ (s.take i).2 = none ∧
      (s.take i).1 = s := by
  obtain ⟨d, a, c⟩ := s
  have hn : d[i]? = none := List.getElem?_eq_none h
  have hd : d.set i none = d := List.set_eq_of_length_le h
  refine ⟨?_, ?_, ?_, ?_⟩ <;>
    simp [VecOptionStorage.get, VecOptionStorage.get_mut,
      VecOptionStorage.take, hn, hd]

/-- C6 witness: on the fresh storage of length 0, index 3 is out of range and
all three accessors return the empty option. -/
theorem out_of_range_returns_none_witness :
    vs0.data.length ≤ 3 ∧
      (vs0.get 3 = none ∧ vs0.get_mut 3 = none ∧ (vs0.take 3).2 = none ∧
        (vs0.take 3).1 = vs0) :=
  ⟨by decide, out_of_range_returns_none vs0 3 (by decide)⟩

/-- C7: `push v` followed by `take` at the returned index yields `v` back and
restores `len()` to its value before the push. -/
theorem push_take_roundtrip {α δ : Type} (s : VecOptionStorage α δ) (v : α) :
    ((s.push v).1.take (s.push v).2).2 = some v ∧
      ((s.push v).1.take (s.push v).2).1.len = s.len := by
  have hg : ((s.push v).1.data)[(s.push v).2]? = some (some v) := by
    show (s.data ++ [some v])[s.data.length]? = some (some v)
    exact List.getElem?_concat_length _ _
  constructor
  · show (((s.push v).1.data)[(s.push v).2]?).bind id = some v
    rw [hg]
    rfl
  · show (if ((((s.push v).1.data)[(s.push v).2]?).bind id).isSome
      then (s.push v).1.count - 1 else (s.push v).1.count) = s.count
    rw [hg]
    show (if (some v).isSome then s.count + 1 - 1 else s.count + 1) = s.count
    simp

/-- C8: on single-valued storage, `set` overwrites any prior value: after
`set a1; set a2` the slot is present and holds `a2`; `take` then returns `a2`
(and `take_boxed` its boxed capability view), after which the slot is absent
and `get` returns the empty option. -/
theorem single_set_overwrite {α δ : Type} (s : OptionStorage α δ)
    (a1 a2 : α) :
    (s.set a1).is_some = true ∧
      ((s.set a1).set a2).get = some a2 ∧
      ((s.set a1).set a2).is_some = true ∧
      (((s.set a1).set a2).take).2 = some a2 ∧
      (((s.set a1).set a2).take_boxed).2 =
        some (s.trait_accessor.up_box a2) ∧
      (((s.set a1).set a2).take).1.is_some = false ∧
      (((s.set a1).set a2).take).1.get = none :=
  ⟨rfl, rfl, rfl, rfl, rfl, rfl, rfl⟩

/-- C9: under the map invariant, for every registered identity the typed
accessors succeed and return exactly the typed storage wrapped by the handle
that `get_trait_storage` yields; the downcast failure branch is unreachable. -/
theorem downcast_sound {K : Type} [DecidableEq K] {El : K → Type} {δ : Type}
    (m : TraitTypeMap K El δ) (T : K) (e : DynStorage K El δ)
    (hw : WellFormed m) (he : m.get_trait_storage T = some e) :
    ∃ s, m.get_storage T = Except.ok s ∧
      m.get_storage_mut T = Except.ok s ∧ e = ⟨T, s⟩ := by
  have hmem : (T, e) ∈ m.entries := hmGet_mem he
  have h1 : e.1 = T := hw (T, e) hmem
  obtain ⟨t, st⟩ := e
  subst h1
  refine ⟨st, ?_, ?_, rfl⟩
  · have he' : hmGet (⟨t, st⟩ : DynStorage K El δ).1 m.entries =
        some ⟨t, st⟩ := he
    simp only [TraitTypeMap.get_storage, he', storage_ref_self]
  · have he' : hmGet (⟨t, st⟩ : DynStorage K El δ).1 m.entries =
        some ⟨t, st⟩ := he
    simp only [TraitTypeMap.get_storage_mut, he', storage_ref_self]

/-- C9 witness: on the concrete map with identity 0 registered, the typed
accessors return exactly the storage wrapped by the trait handle. -/
theorem downcast_sound_witness :
    WellFormed mapWithZero ∧
      mapWithZero.get_trait_storage 0 =
        some ⟨0, VecOptionStorage.new accId⟩ ∧
      (∃ s, mapWithZero.get_storage 0 = Except.ok s ∧
        mapWithZero.get_storage_mut 0 = Except.ok s ∧
        (⟨0, VecOptionStorage.new accId⟩ : DynStorage Nat natEl Nat) =
          ⟨0, s⟩) :=
  ⟨(by decide : ∀ p ∈ mapWithZero.entries, (p.2).1 = p.1), rfl,
    downcast_sound mapWithZero 0 ⟨0, VecOptionStorage.new accId⟩
      (by decide : ∀ p ∈ mapWithZero.entries, (p.2).1 = p.1) rfl⟩

/-- C10: re-registering an already-registered identity first replaces the
stored handle in the map by a fresh empty typed storage and only then raises
the fatal "type already registered"; the failed registration is not atomic
with respect to the map state. -/
theorem register_replaces_before_panic {K : Type} [DecidableEq K]
    {El : K → Type} {δ : Type} (m : TraitTypeMap K El δ) (T : K)
    (acc : TraitAccessor (El T) δ)
    (h : (m.get_trait_storage T).isSome = true) :
    (m.register_type_storage T acc).2 = some "type already registered" ∧
      (m.register_type_storage T acc).1.get_trait_storage T =
        some ⟨T, VecOptionStorage.new acc⟩ := by
  constructor
  · show (if (hmInsert T ⟨T, VecOptionStorage.new acc⟩ m.entries).2.isNone
      then none else some "type already registered") =
      some "type already registered"
    rw [hmInsert_snd]
    have h' : (hmGet T m.entries).isSome = true := h
    cases hg : hmGet T m.entries with
    | none => rw [hg] at h'; simp at h'
    | some e => rfl
  · show hmGet T (hmInsert T ⟨T, VecOptionStorage.new acc⟩ m.entries).1 =
      some ⟨T, VecOptionStorage.new acc⟩
    exact hmGet_hmInsert_self _ _ _

/-- C10 witness: re-registering identity 0 on the concrete map panics with
"type already registered", yet the entry now wraps a fresh empty storage. -/
theorem register_replaces_before_panic_witness :
    (mapWithZero.get_trait_storage 0).isSome = true ∧
      ((mapWithZero.register_type_storage 0 accId).2 =
          some "type already registered" ∧
        (mapWithZero.register_type_storage 0 accId).1.get_trait_storage 0 =
          some ⟨0, VecOptionStorage.new accId⟩) :=
  ⟨by decide, register_replaces_before_panic mapWithZero 0 accId (by decide)⟩
